import Mathlib

/-!
Verification of `mozbuilddata/connection/builds.py` (`BuildConnection`):
a two-method data-access wrapper that inserts a build record into the
`builds` table and fetches one by its `id`.

The embedding models a Python dict (a row) as an association list of
string keys and opaque string values, with dict item assignment
(`d[k] = v`) replacing the value in place when the key exists and
appending it otherwise, exactly as Python's insertion-ordered dicts do.
The unseen `ConnectionBase` collaborator (`_insert_dict`, `cursor`,
`execute`, `_cursor_to_dicts`) is not part of the source fragment; its
operations are modelled from the specification's description of them.
-/

/-- A row / Python dict: insertion-ordered association list from column
name to opaque value. -/
abbrev Row := List (String × String)

/-- First-match lookup of a key in a row, as Python dict indexing does
on the well-formed (duplicate-free) dicts the program builds. -/
def rowLookup (d : Row) (k : String) : Option String :=
  match d.find? (fun p => p.1 = k) with
  | some p => some p.2
  | none => none

/-- Python dict item assignment `d[k] = v`: replace the value at `k` in
place when the key is present, otherwise append the new pair at the end
(insertion order preserved). -/
def setKey (d : Row) (k v : String) : Row :=
  if d.any (fun p => p.1 = k) then
    d.map (fun p => if p.1 = k then (k, v) else p)
  else
    d ++ [(k, v)]

/-- The store state visible to `BuildConnection`: the `builds` table as
a list of rows in insertion order. -/
structure Store where
  builds : List Row
deriving Repr, DecidableEq

/-- Modelled from the spec: `ConnectionBase._insert_dict` is the
collaborator's generic "insert mapping as row" operation, persisting the
mapping as one new row of the table; the spec's data-model invariant
makes `id` unique within the `builds` table as a store-level constraint,
so inserting a row whose `id` already occurs raises a uniqueness
violation from the store. -/
def insert_dict (table : List Row) (d : Row) : Except String (List Row) :=
  match rowLookup d "id" with
  | some i =>
      if table.any (fun r => rowLookup r "id" = some i) then
        Except.error "UNIQUE constraint failed: builds.id"
      else
        Except.ok (table ++ [d])
  | none => Except.ok (table ++ [d])

/-- `BuildConnection.insert_build`: copy `params` into a fresh dict,
set `id` to `build_id` and `version_` to `version`, and persist the
dict as a row of the `builds` table via `_insert_dict`. -/
def insert_build (s : Store) (build_id version : String) (params : Row) :
    Except String Store := do
  let d := params
  let d := setKey d "id" build_id
  let d := setKey d "version_" version
  let builds ← insert_dict s.builds d
  pure ⟨builds⟩

/-- One parameterized SQL execution as handed to the collaborator's
`execute`: the SQL text and the bound parameters, kept separate. -/
structure ExecCall where
  sql : String
  boundParams : List (String × String)
deriving Repr, DecidableEq

/-- The single execution `get_build` issues: the constant query text
`SELECT * FROM builds WHERE id=:id` with `build_id` bound to `:id`. -/
def get_build_call (build_id : String) : ExecCall :=
  ⟨"SELECT * FROM builds WHERE id=:id", [("id", build_id)]⟩

/-- Modelled from the spec: the collaborator's cursor pipeline
(`cursor` / `execute` / `_cursor_to_dicts`) for the parameterized
lookup `SELECT * FROM builds WHERE id=:id` yields, converted to
mappings and in table order, exactly the rows of `builds` whose `id`
column equals the bound `:id` parameter. -/
def runSelect (builds : List Row) (call : ExecCall) : List Row :=
  builds.filter (fun r => rowLookup r "id" = rowLookup call.boundParams "id")

/-- `BuildConnection.get_build`: execute the parameterized lookup, then
`for row in self._cursor_to_dicts(c): return row` returns the first
resulting mapping, and `return None` is reached when there is none. -/
def get_build (s : Store) (build_id : String) : Option Row :=
  match runSelect s.builds (get_build_call build_id) with
  | row :: _ => some row
  | [] => none

/-- Modelled from the spec: a `get_build` call is a single synchronous
read-only round trip; threading the store through the call makes the
absence of writes explicit. -/
def get_build_run (s : Store) (build_id : String) : Store × Option Row :=
  (s, get_build s build_id)

/-- The dict value `insert_build` hands to `_insert_dict`: `params`
copied, then `id` and `version_` assigned. -/
def builtRow (build_id version : String) (params : Row) : Row :=
  setKey (setKey params "id" build_id) "version_" version

theorem rowLookup_nil (k : String) : rowLookup [] k = none := rfl

theorem rowLookup_cons_pos (p : String × String) (t : Row) (k : String) (h : p.1 = k) :
    rowLookup (p :: t) k = some p.2 := by
  simp [rowLookup, List.find?_cons_of_pos, h]

theorem rowLookup_cons_neg (p : String × String) (t : Row) (k : String) (h : ¬ p.1 = k) :
    rowLookup (p :: t) k = rowLookup t k := by
  simp only [rowLookup]
  rw [List.find?_cons_of_neg]
  simp [h]

theorem setKey_cons_pos (p : String × String) (t : Row) (k v : String) (h : p.1 = k) :
    setKey (p :: t) k v = (k, v) :: t.map (fun q => if q.1 = k then (k, v) else q) := by
  simp [setKey, h]

theorem setKey_cons_neg (p : String × String) (t : Row) (k v : String) (h : ¬ p.1 = k) :
    setKey (p :: t) k v = p :: setKey t k v := by
  by_cases ht : t.any (fun q => decide (q.1 = k)) = true
  · simp [setKey, h, ht]
  · simp [setKey, h, ht]

theorem rowLookup_setKey_self (d : Row) (k v : String) :
    rowLookup (setKey d k v) k = some v := by
  induction d with
  | nil => simp [setKey, rowLookup]
  | cons p t ih =>
      by_cases hp : p.1 = k
      · rw [setKey_cons_pos p t k v hp, rowLookup_cons_pos (k, v) _ k rfl]
      · rw [setKey_cons_neg p t k v hp, rowLookup_cons_neg p _ k hp, ih]

theorem rowLookup_mapOverwrite (t : Row) (k v q : String) (h : ¬ q = k) :
    rowLookup (t.map (fun p => if p.1 = k then (k, v) else p)) q = rowLookup t q := by
  induction t with
  | nil => rfl
  | cons p t ih =>
      rw [List.map_cons]
      by_cases hp : p.1 = k
      · rw [if_pos hp,
          rowLookup_cons_neg (k, v) _ q (fun hh => h (hh.symm : q = k)),
          rowLookup_cons_neg p t q (fun hh => h ((hp ▸ hh).symm ▸ rfl)), ih]
      · rw [if_neg hp]
        by_cases hq : p.1 = q
        · rw [rowLookup_cons_pos p _ q hq, rowLookup_cons_pos p _ q hq]
        · rw [rowLookup_cons_neg p _ q hq, rowLookup_cons_neg p _ q hq, ih]

theorem rowLookup_setKey_ne (d : Row) (k v q : String) (h : ¬ q = k) :
    rowLookup (setKey d k v) q = rowLookup d q := by
  induction d with
  | nil =>
      have hk : ¬ ((k, v) : String × String).1 = q := fun hh => h hh.symm
      show rowLookup (setKey [] k v) q = rowLookup [] q
      rw [setKey]
      simp only [List.any_nil, Bool.false_eq_true, if_false, List.nil_append]
      rw [rowLookup_cons_neg (k, v) [] q hk]
  | cons p t ih =>
      by_cases hp : p.1 = k
      · rw [setKey_cons_pos p t k v hp,
          rowLookup_cons_neg (k, v) _ q (fun hh => h hh.symm),
          rowLookup_mapOverwrite t k v q h,
          rowLookup_cons_neg p t q (fun hh => h (hp ▸ hh).symm)]
      · rw [setKey_cons_neg p t k v hp]
        by_cases hq : p.1 = q
        · rw [rowLookup_cons_pos p _ q hq, rowLookup_cons_pos p _ q hq]
        · rw [rowLookup_cons_neg p _ q hq, rowLookup_cons_neg p _ q hq, ih]

theorem rowLookup_builtRow_id (build_id version : String) (params : Row) :
    rowLookup (builtRow build_id version params) "id" = some build_id := by
  rw [builtRow, rowLookup_setKey_ne _ _ _ _ (by decide), rowLookup_setKey_self]

theorem rowLookup_builtRow_version (build_id version : String) (params : Row) :
    rowLookup (builtRow build_id version params) "version_" = some version := by
  rw [builtRow, rowLookup_setKey_self]

theorem rowLookup_builtRow_other (build_id version : String) (params : Row) (q : String)
    (h1 : ¬ q = "id") (h2 : ¬ q = "version_") :
    rowLookup (builtRow build_id version params) q = rowLookup params q := by
  rw [builtRow, rowLookup_setKey_ne _ _ _ _ h2, rowLookup_setKey_ne _ _ _ _ h1]

theorem insert_build_ok_iff (s : Store) (build_id version : String) (params : Row) (s' : Store) :
    insert_build s build_id version params = Except.ok s' ↔
      (∀ r ∈ s.builds, ¬ rowLookup r "id" = some build_id) ∧
      s' = ⟨s.builds ++ [builtRow build_id version params]⟩ := by
  show (do
      let builds ← insert_dict s.builds (builtRow build_id version params)
      pure (Store.mk builds) : Except String Store) = Except.ok s' ↔ _
  rw [insert_dict, rowLookup_builtRow_id]
  dsimp only
  by_cases hc : s.builds.any (fun r => decide (rowLookup r "id" = some build_id)) = true
  · rw [if_pos hc]
    simp only [List.any_eq_true, decide_eq_true_eq] at hc
    obtain ⟨r, hr, hid⟩ := hc
    simp only [Bind.bind, Except.bind]
    constructor
    · intro h; cases h
    · rintro ⟨hall, -⟩
      exact absurd hid (hall r hr)
  · rw [if_neg hc]
    simp only [List.any_eq_true, decide_eq_true_eq, not_exists] at hc
    push_neg at hc
    simp only [Bind.bind, Except.bind, Pure.pure, Except.pure, Except.ok.injEq]
    constructor
    · intro h; exact ⟨hc, h.symm⟩
    · rintro ⟨-, h⟩; exact h.symm

theorem runSelect_get_build_call (builds : List Row) (build_id : String) :
    runSelect builds (get_build_call build_id) =
      builds.filter (fun r => rowLookup r "id" = some build_id) := by
  have h : rowLookup (get_build_call build_id).boundParams "id" = some build_id := by
    exact rowLookup_cons_pos ("id", build_id) [] "id" rfl
  rw [runSelect, h]

theorem get_build_eq_head (s : Store) (build_id : String) :
    get_build s build_id =
      (s.builds.filter (fun r => rowLookup r "id" = some build_id)).head? := by
  rw [get_build, runSelect_get_build_call]
  cases s.builds.filter (fun r => rowLookup r "id" = some build_id) <;> rfl

/-- Claim C1: inserting a build and then fetching the same `id` from the
resulting store returns a record (not the absent-marker `none`) whose
`version_` field equals the inserted `version` and which agrees with
`params` on every key other than `id` and `version_` (those two are
overridden). Stated for every store on which the insert succeeds; when
the store's unique-`id` constraint rejects the insert there is no
resulting store. -/
theorem insert_then_get_found (s s' : Store) (build_id version : String) (params : Row)
    (h : insert_build s build_id version params = Except.ok s') :
    ∃ r, get_build s' build_id = some r ∧
      rowLookup r "version_" = some version ∧
      ∀ k, ¬ k = "id" → ¬ k = "version_" → rowLookup r k = rowLookup params k := by
  obtain ⟨hfresh, hs'⟩ := (insert_build_ok_iff s build_id version params s').1 h
  refine ⟨builtRow build_id version params, ?_,
    rowLookup_builtRow_version build_id version params,
    fun k h1 h2 => rowLookup_builtRow_other build_id version params k h1 h2⟩
  rw [hs', get_build_eq_head]
  show ((s.builds ++ [builtRow build_id version params]).filter
      (fun r => rowLookup r "id" = some build_id)).head? = _
  rw [List.filter_append,
    List.filter_eq_nil_iff.2 (fun r hr => by simpa using hfresh r hr),
    List.nil_append, List.filter_cons,
    if_pos (by simpa using rowLookup_builtRow_id build_id version params)]
  rfl

/-- Witness for C1 at a concrete input: inserting build `b1` version `7`
with one extra column into the empty store and fetching `b1`. -/
theorem insert_then_get_found_witness :
    ∃ r, get_build ⟨[builtRow "b1" "7" [("branch", "mc")]]⟩ "b1" = some r ∧
      rowLookup r "version_" = some "7" ∧
      ∀ k, ¬ k = "id" → ¬ k = "version_" →
        rowLookup r k = rowLookup [("branch", "mc")] k :=
  insert_then_get_found ⟨[]⟩ ⟨[builtRow "b1" "7" [("branch", "mc")]]⟩ "b1" "7"
    [("branch", "mc")] rfl

/-- Claim C2: when no row of the `builds` table has `id` equal to
`build_id`, `get_build` returns the explicit absent-marker `none`. -/
theorem get_build_absent_none (s : Store) (build_id : String)
    (h : ∀ r ∈ s.builds, ¬ rowLookup r "id" = some build_id) :
    get_build s build_id = none := by
  rw [get_build_eq_head,
    List.filter_eq_nil_iff.2 (fun r hr => by simpa using h r hr)]
  rfl

/-- Witness for C2 at a concrete input: a one-row store queried for an
`id` it does not contain. -/
theorem get_build_absent_none_witness :
    get_build ⟨[[("id", "b1"), ("version_", "7")]]⟩ "nope" = none :=
  get_build_absent_none ⟨[[("id", "b1"), ("version_", "7")]]⟩ "nope"
    (by intro r hr; simp only [List.mem_singleton] at hr; subst hr; decide)

/-- Claim C3: the row persisted by a successful `insert_build` is, as a
mapping, exactly `params` with `id` set to `build_id` and `version_` set
to `version`; explicit arguments override any `id` or `version_` entry
already present in `params`. -/
theorem insert_build_persists_exact_row (s s' : Store) (build_id version : String)
    (params : Row)
    (h : insert_build s build_id version params = Except.ok s') :
    ∃ d, s'.builds = s.builds ++ [d] ∧
      ∀ k, rowLookup d k =
        if k = "id" then some build_id
        else if k = "version_" then some version
        else rowLookup params k := by
  obtain ⟨-, hs'⟩ := (insert_build_ok_iff s build_id version params s').1 h
  refine ⟨builtRow build_id version params, by rw [hs'], fun k => ?_⟩
  by_cases h1 : k = "id"
  · subst h1
    rw [if_pos rfl, rowLookup_builtRow_id]
  · rw [if_neg h1]
    by_cases h2 : k = "version_"
    · subst h2
      rw [if_pos rfl, rowLookup_builtRow_version]
    · rw [if_neg h2, rowLookup_builtRow_other build_id version params k h1 h2]

/-- Witness for C3 at a concrete input: `params` already carries both an
`id` and a `version_` entry and the explicit arguments override them. -/
theorem insert_build_persists_exact_row_witness :
    ∃ d, (⟨[builtRow "b2" "9" [("id", "old"), ("version_", "0"), ("os", "linux")]]⟩ :
        Store).builds = ([] : List Row) ++ [d] ∧
      ∀ k, rowLookup d k =
        if k = "id" then some "b2"
        else if k = "version_" then some "9"
        else rowLookup [("id", "old"), ("version_", "0"), ("os", "linux")] k :=
  insert_build_persists_exact_row ⟨[]⟩
    ⟨[builtRow "b2" "9" [("id", "old"), ("version_", "0"), ("os", "linux")]]⟩
    "b2" "9" [("id", "old"), ("version_", "0"), ("os", "linux")] rfl

/-- Claim C4: when the `builds` table decomposes as `pre ++ r :: post`
with `r` matching `build_id` and nothing in `pre` matching it, `get_build`
returns exactly `some r` — the first matching row in result order — and
ignores any further matches in `post`. -/
theorem get_build_first_match (s : Store) (build_id : String) (pre post : List Row)
    (r : Row) (hs : s.builds = pre ++ r :: post)
    (hr : rowLookup r "id" = some build_id)
    (hpre : ∀ q ∈ pre, ¬ rowLookup q "id" = some build_id) :
    get_build s build_id = some r := by
  rw [get_build_eq_head, hs, List.filter_append,
    List.filter_eq_nil_iff.2 (fun q hq => by simpa using hpre q hq),
    List.nil_append, List.filter_cons, if_pos (by simpa using hr)]
  rfl

/-- Witness for C4 at a concrete input: a table holding two rows with the
same `id`; the first one is returned and the second ignored. -/
theorem get_build_first_match_witness :
    get_build ⟨[[("id", "b1"), ("version_", "7")], [("id", "b1"), ("version_", "8")]]⟩
      "b1" = some [("id", "b1"), ("version_", "7")] :=
  get_build_first_match
    ⟨[[("id", "b1"), ("version_", "7")], [("id", "b1"), ("version_", "8")]]⟩
    "b1" [] [[("id", "b1"), ("version_", "8")]] [("id", "b1"), ("version_", "7")]
    rfl (by decide) (by intro q hq; cases hq)

/-- Claim C5: after successfully inserting two builds with distinct
`id`s, fetching each `id` returns the record built from that insert's
own arguments; the two records are never confused. -/
theorem insert_two_distinct_no_confusion (s s1 s2 : Store) (id1 v1 id2 v2 : String)
    (p1 p2 : Row) (hne : ¬ id1 = id2)
    (h1 : insert_build s id1 v1 p1 = Except.ok s1)
    (h2 : insert_build s1 id2 v2 p2 = Except.ok s2) :
    get_build s2 id1 = some (builtRow id1 v1 p1) ∧
    get_build s2 id2 = some (builtRow id2 v2 p2) := by
  obtain ⟨hf1, hs1⟩ := (insert_build_ok_iff s id1 v1 p1 s1).1 h1
  obtain ⟨hf2, hs2⟩ := (insert_build_ok_iff s1 id2 v2 p2 s2).1 h2
  rw [hs1] at hs2 hf2
  constructor
  · exact get_build_first_match s2 id1 s.builds [builtRow id2 v2 p2]
      (builtRow id1 v1 p1)
      (by rw [hs2]; simp)
      (rowLookup_builtRow_id id1 v1 p1) hf1
  · exact get_build_first_match s2 id2 (s.builds ++ [builtRow id1 v1 p1]) []
      (builtRow id2 v2 p2)
      (by rw [hs2])
      (rowLookup_builtRow_id id2 v2 p2) hf2

/-- Witness for C5 at concrete inputs: builds `a` and `b` inserted into
the empty store and fetched back separately. -/
theorem insert_two_distinct_no_confusion_witness :
    get_build ⟨[builtRow "a" "1" [], builtRow "b" "2" []]⟩ "a" =
      some (builtRow "a" "1" []) ∧
    get_build ⟨[builtRow "a" "1" [], builtRow "b" "2" []]⟩ "b" =
      some (builtRow "b" "2" []) :=
  insert_two_distinct_no_confusion ⟨[]⟩ ⟨[builtRow "a" "1" []]⟩
    ⟨[builtRow "a" "1" [], builtRow "b" "2" []]⟩ "a" "1" "b" "2" [] []
    (by decide) rfl rfl

/-- `insert_build` with the collaborator's `_insert_dict` abstracted as
an arbitrary fallible operation: the method body computes the dict, calls
the collaborator once, discards its result, and has no exception handling
of its own. -/
def insert_buildWith {ε σ : Type} (insertDict : Row → Except ε σ)
    (build_id version : String) (params : Row) : Except ε Unit := do
  let d := params
  let d := setKey d "id" build_id
  let d := setKey d "version_" version
  let _ ← insertDict d
  pure ()

/-- `get_build` with the collaborator's cursor pipeline abstracted as
arbitrary fallible operations (`self.c.cursor()`, `c.execute(...)`,
`self._cursor_to_dicts(c)`): the method body chains them with no
exception handling of its own. -/
def get_buildWith {ε κ : Type} (cursor : Except ε κ)
    (execute : κ → ExecCall → Except ε κ)
    (cursorToDicts : κ → Except ε (List Row)) (build_id : String) :
    Except ε (Option Row) := do
  let c ← cursor
  let c2 ← execute c (get_build_call build_id)
  let rows ← cursorToDicts c2
  match rows with
  | row :: _ => pure (some row)
  | [] => pure none

/-- Claim C6: whichever collaborator primitive fails — the insert
primitive during `insert_build`, or cursor creation, `execute`, or
row-to-mapping conversion during `get_build` — the same error value
surfaces unchanged as the method's result: nothing is caught, wrapped,
retried, or substituted. -/
theorem collaborator_errors_propagate {ε σ κ : Type} (e : ε)
    (insertDict : Row → Except ε σ) (cursor : Except ε κ)
    (execute : κ → ExecCall → Except ε κ)
    (cursorToDicts : κ → Except ε (List Row))
    (build_id version : String) (params : Row) :
    (insertDict (builtRow build_id version params) = Except.error e →
        insert_buildWith insertDict build_id version params = Except.error e) ∧
    (cursor = Except.error e →
        get_buildWith cursor execute cursorToDicts build_id = Except.error e) ∧
    (∀ c, cursor = Except.ok c →
        execute c (get_build_call build_id) = Except.error e →
        get_buildWith cursor execute cursorToDicts build_id = Except.error e) ∧
    (∀ c c2, cursor = Except.ok c →
        execute c (get_build_call build_id) = Except.ok c2 →
        cursorToDicts c2 = Except.error e →
        get_buildWith cursor execute cursorToDicts build_id = Except.error e) := by
  refine ⟨fun hi => ?_, fun hc => ?_, fun c hc he => ?_, fun c c2 hc he hd => ?_⟩
  · show (do
        let _ ← insertDict (builtRow build_id version params)
        pure () : Except ε Unit) = Except.error e
    rw [hi]
    rfl
  · rw [get_buildWith, hc]
    rfl
  · rw [get_buildWith, hc]
    show (do
        let c2 ← execute c (get_build_call build_id)
        let rows ← cursorToDicts c2
        match rows with
        | row :: _ => pure (some row)
        | [] => pure none : Except ε (Option Row)) = Except.error e
    rw [he]
    rfl
  · rw [get_buildWith, hc]
    show (do
        let c2 ← execute c (get_build_call build_id)
        let rows ← cursorToDicts c2
        match rows with
        | row :: _ => pure (some row)
        | [] => pure none : Except ε (Option Row)) = Except.error e
    rw [he]
    show (do
        let rows ← cursorToDicts c2
        match rows with
        | row :: _ => pure (some row)
        | [] => pure none : Except ε (Option Row)) = Except.error e
    rw [hd]
    rfl

/-- Witness for C6 at concrete inputs: a failing insert primitive, a
failing cursor constructor, a failing execute, and a failing row
conversion, each surfacing its own error string unchanged. -/
theorem collaborator_errors_propagate_witness :
    insert_buildWith (fun _ => (Except.error "insert down" : Except String Unit))
      "b1" "7" [] = Except.error "insert down" ∧
    get_buildWith (Except.error "no cursor" : Except String Unit)
      (fun c _ => Except.ok c) (fun _ => Except.ok []) "b1" =
      Except.error "no cursor" ∧
    get_buildWith (Except.ok () : Except String Unit)
      (fun _ _ => Except.error "execute down") (fun _ => Except.ok []) "b1" =
      Except.error "execute down" ∧
    get_buildWith (Except.ok () : Except String Unit) (fun c _ => Except.ok c)
      (fun _ => Except.error "conversion down") "b1" =
      Except.error "conversion down" :=
  ⟨(collaborator_errors_propagate "insert down"
      (fun _ => (Except.error "insert down" : Except String Unit))
      (Except.ok ()) (fun c _ => Except.ok c) (fun _ => Except.ok [])
      "b1" "7" []).1 rfl,
   (collaborator_errors_propagate "no cursor"
      (fun _ => (Except.ok () : Except String Unit))
      (Except.error "no cursor" : Except String Unit)
      (fun c _ => Except.ok c) (fun _ => Except.ok []) "b1" "7" []).2.1 rfl,
   (collaborator_errors_propagate "execute down"
      (fun _ => (Except.ok () : Except String Unit))
      (Except.ok () : Except String Unit)
      (fun _ _ => Except.error "execute down") (fun _ => Except.ok [])
      "b1" "7" []).2.2.1 () rfl rfl,
   (collaborator_errors_propagate "conversion down"
      (fun _ => (Except.ok () : Except String Unit))
      (Except.ok () : Except String Unit) (fun c _ => Except.ok c)
      (fun _ => Except.error "conversion down") "b1" "7" []).2.2.2 () () rfl rfl
        rfl⟩

/-- Claim C7: a successful `insert_build` appends exactly one new row to
the `builds` table — every pre-existing row is still there, unchanged and
in place — and `get_build` is a pure read that leaves the whole store
untouched; this component never mutates or deletes a record. -/
theorem insert_frame_get_readonly (s s' : Store) (build_id version : String)
    (params : Row)
    (h : insert_build s build_id version params = Except.ok s') :
    (∃ d, s'.builds = s.builds ++ [d]) ∧
    s'.builds.length = s.builds.length + 1 ∧
    s'.builds.take s.builds.length = s.builds ∧
    ∀ q : String, (get_build_run s' q).1 = s' ∧ (get_build_run s q).1 = s := by
  obtain ⟨-, hs'⟩ := (insert_build_ok_iff s build_id version params s').1 h
  subst hs'
  refine ⟨⟨builtRow build_id version params, rfl⟩, by simp, ?_, fun q => ⟨rfl, rfl⟩⟩
  exact List.take_left s.builds [builtRow build_id version params]

/-- Witness for C7 at a concrete input: inserting into a one-row store
keeps the old row first and untouched and adds exactly one row. -/
theorem insert_frame_get_readonly_witness :
    (∃ d, (⟨[[("id", "a"), ("version_", "1")], builtRow "b" "2" []]⟩ : Store).builds =
        [[("id", "a"), ("version_", "1")]] ++ [d]) ∧
    (⟨[[("id", "a"), ("version_", "1")], builtRow "b" "2" []]⟩ : Store).builds.length =
      [[("id", "a"), ("version_", "1")]].length + 1 ∧
    (⟨[[("id", "a"), ("version_", "1")], builtRow "b" "2" []]⟩ : Store).builds.take
      [[("id", "a"), ("version_", "1")]].length = [[("id", "a"), ("version_", "1")]] ∧
    ∀ q : String,
      (get_build_run ⟨[[("id", "a"), ("version_", "1")], builtRow "b" "2" []]⟩ q).1 =
        ⟨[[("id", "a"), ("version_", "1")], builtRow "b" "2" []]⟩ ∧
      (get_build_run ⟨[[("id", "a"), ("version_", "1")]]⟩ q).1 =
        ⟨[[("id", "a"), ("version_", "1")]]⟩ :=
  insert_frame_get_readonly ⟨[[("id", "a"), ("version_", "1")]]⟩
    ⟨[[("id", "a"), ("version_", "1")], builtRow "b" "2" []]⟩ "b" "2" [] rfl

/-- Claim C8: `get_build` always hands the store the fixed SQL text
`SELECT * FROM builds WHERE id=:id` — the same string for every
`build_id` — with `build_id` carried only in the bound-parameter mapping,
never interpolated into the SQL text; `get_build` consumes exactly that
call. -/
theorem get_build_sql_constant (s : Store) (b1 b2 : String) :
    (get_build_call b1).sql = "SELECT * FROM builds WHERE id=:id" ∧
    (get_build_call b1).sql = (get_build_call b2).sql ∧
    (get_build_call b1).boundParams = [("id", b1)] ∧
    get_build s b1 =
      (match runSelect s.builds (get_build_call b1) with
        | row :: _ => some row
        | [] => none) :=
  ⟨rfl, rfl, rfl, rfl⟩

/-- Python object semantics of `insert_build` made explicit: dicts live
on a heap of rows addressed by numeric references; `d = dict(params)`
allocates a copy of the caller's dict at a fresh reference, the two item
assignments `d[...] = ...` mutate only that fresh copy in place, and
`_insert_dict` then receives the copy's final value. Returns the final
heap together with the table operation's outcome. -/
def insert_build_heap (heap builds : List Row) (paramsRef : Nat)
    (build_id version : String) : List Row × Except String (List Row) :=
  let dRef := heap.length
  let heap1 := heap ++ [heap.getD paramsRef []]
  let heap2 := heap1.set dRef (setKey (heap1.getD dRef []) "id" build_id)
  let heap3 := heap2.set dRef (setKey (heap2.getD dRef []) "version_" version)
  (heap3, insert_dict builds (heap3.getD dRef []))

/-- Claim C9: `insert_build` never mutates the caller's `params` dict:
after the call the object the caller passed holds exactly the pairs it
held before — same keys, same values — even when it already contained an
`id` or `version_` entry, because `dict(params)` copies it before the
assignments. -/
theorem insert_build_params_unchanged (heap builds : List Row) (paramsRef : Nat)
    (build_id version : String) (h : paramsRef < heap.length) :
    (insert_build_heap heap builds paramsRef build_id version).1.getD paramsRef [] =
      heap.getD paramsRef [] ∧
    ∀ k, rowLookup
        ((insert_build_heap heap builds paramsRef build_id version).1.getD
          paramsRef []) k =
      rowLookup (heap.getD paramsRef []) k := by
  have hne : heap.length ≠ paramsRef := fun hh => absurd (hh ▸ h) (lt_irrefl _)
  have hmain :
      (insert_build_heap heap builds paramsRef build_id version).1.getD paramsRef [] =
        heap.getD paramsRef [] := by
    simp only [insert_build_heap, List.getD_eq_getElem?_getD]
    rw [List.getElem?_set_ne hne, List.getElem?_set_ne hne,
      List.getElem?_append_left h]
  exact ⟨hmain, fun k => by rw [hmain]⟩

/-- Witness for C9 at a concrete input: a params dict that already holds
`id` and `version_` entries is unchanged by the call. -/
theorem insert_build_params_unchanged_witness :
    (insert_build_heap [[("id", "old"), ("version_", "0")]] [] 0 "b9" "9").1.getD 0 [] =
      ([[("id", "old"), ("version_", "0")]] : List Row).getD 0 [] ∧
    ∀ k, rowLookup
        ((insert_build_heap [[("id", "old"), ("version_", "0")]] [] 0 "b9" "9").1.getD
          0 []) k =
      rowLookup (([[("id", "old"), ("version_", "0")]] : List Row).getD 0 []) k :=
  insert_build_params_unchanged [[("id", "old"), ("version_", "0")]] [] 0 "b9" "9"
    (by decide)

/-- Coherence of the heap-level model with the value-level one: the row
handed to `_insert_dict` is exactly `builtRow` of the caller's dict. -/
theorem insert_build_heap_row (heap builds : List Row) (paramsRef : Nat)
    (build_id version : String) :
    (insert_build_heap heap builds paramsRef build_id version).2 =
      insert_dict builds (builtRow build_id version (heap.getD paramsRef [])) := by
  have hlen1 : heap.length < (heap ++ [heap.getD paramsRef []]).length := by
    simp
  simp only [insert_build_heap, builtRow, List.getD_eq_getElem?_getD]
  rw [List.getElem?_set_self (by simpa using hlen1),
    List.getElem?_set_self (by simpa using hlen1),
    List.getElem?_concat_length]
  rfl

/-- Claim C10: inserting with an empty `params` mapping still persists a
row, and that row is exactly the two-entry mapping `id = build_id`,
`version_ = version` — its key list is `id`, `version_` and nothing
else. -/
theorem insert_empty_params_exact_row (s s' : Store) (build_id version : String)
    (h : insert_build s build_id version [] = Except.ok s') :
    s'.builds = s.builds ++ [[("id", build_id), ("version_", version)]] ∧
    ([("id", build_id), ("version_", version)] : Row).map Prod.fst =
      ["id", "version_"] := by
  obtain ⟨-, hs'⟩ := (insert_build_ok_iff s build_id version [] s').1 h
  exact ⟨hs' ▸ rfl, rfl⟩

/-- Witness for C10 at a concrete input: inserting `b3` version `3` with
no extra columns into the empty store. -/
theorem insert_empty_params_exact_row_witness :
    (⟨[builtRow "b3" "3" []]⟩ : Store).builds =
      ([] : List Row) ++ [[("id", "b3"), ("version_", "3")]] ∧
    ([("id", "b3"), ("version_", "3")] : Row).map Prod.fst = ["id", "version_"] :=
  insert_empty_params_exact_row ⟨[]⟩ ⟨[builtRow "b3" "3" []]⟩ "b3" "3" rfl
